import Mathlib

/-!
Verification of the jsopt node arena (src/include/jsopt/node.h and
src/src/node.c): a shallow embedding of the 16-byte node record, the kind
classification macros, and the arena operations, together with theorems
checking the specified contracts.

Machine integers are modelled as Nat. uint32_t arithmetic that can wrap is
reduced modulo 2^32 explicitly; uint8_t stores of the int-typed kind argument
are reduced modulo 2^8. Where an increment provably cannot wrap (count + 1
under count < capacity < 2^32) the reduction is omitted and justified in a
comment. abort() on capacity exhaustion is modelled by returning
Except.error c where c is the capacity printed in the diagnostic; a normal
return of index idx with post-state a is Except.ok (idx, a).
-/

namespace Jsopt

/-- 2^32, the modulus of uint32_t arithmetic. -/
def U32 : Nat := 4294967296

/-- uint32_t subtraction a - b, on values already reduced or not. -/
def sub32 (a b : Nat) : Nat := (a % U32 + (U32 - b % U32)) % U32

/-- struct Node (node.h): 16-byte flat representation of every token and AST
node. The C array field data[2] is modelled as the two fields data0, data1. -/
structure Node where
  kind : Nat
  flags : Nat
  op : Nat
  start : Nat
  data0 : Nat
  data1 : Nat
deriving DecidableEq

/-- The all-zero record (index 0 sentinel, and content of untouched slots). -/
def zeroNode : Node := { kind := 0, flags := 0, op := 0, start := 0, data0 := 0, data1 := 0 }

/-- NODE_EOF = 127, the end-of-input sentinel kind. -/
def NODE_EOF : Nat := 127

/-- NODE_LEN_OVERFLOW 0xFFFF (node.h): sentinel in op for overlong tokens. -/
def NODE_LEN_OVERFLOW : Nat := 65535

/-- NODE_MAX_NODES (1 << 24): the fixed arena capacity. -/
def NODE_MAX_NODES : Nat := 16777216

/-- IS_LEAF(k): (k) < 16. -/
def IS_LEAF (k : Nat) : Bool := decide (k < 16)

/-- IS_KEYWORD(k): (k) >= 16 && (k) < 56. -/
def IS_KEYWORD (k : Nat) : Bool := decide (16 ≤ k) && decide (k < 56)

/-- IS_PUNCT(k): (k) >= 56 && (k) < 72. -/
def IS_PUNCT (k : Nat) : Bool := decide (56 ≤ k) && decide (k < 72)

/-- IS_OPERATOR(k): (k) >= 72 && (k) < 127. -/
def IS_OPERATOR (k : Nat) : Bool := decide (72 ≤ k) && decide (k < 127)

/-- IS_TOKEN(k): (k) <= 127. -/
def IS_TOKEN (k : Nat) : Bool := decide (k ≤ 127)

/-- IS_COMPOUND(k): (k) > 127. -/
def IS_COMPOUND (k : Nat) : Bool := decide (127 < k)

/-- NODE_END(n) (node.h): end offset of a token record. The C expression
(n)->start + (n)->op is uint32_t addition, hence the modulus. -/
def NODE_END (n : Node) : Nat :=
  if n.op = NODE_LEN_OVERFLOW then n.data1 else (n.start + n.op) % U32

/-- NODE_LEN(n) (node.h): NODE_END(n) - (n)->start in uint32_t arithmetic. -/
def NODE_LEN (n : Node) : Nat := sub32 (NODE_END n) n.start

/-- struct NodeArray (node.h). nodes models the mmap-backed buffer as a total
function from index to record (the reservation is zero-initialized in full);
nodesPtr records whether the nodes pointer is non-NULL. -/
structure NodeArray where
  nodesPtr : Bool
  nodes : Nat → Node
  count : Nat
  capacity : Nat
  token_end : Nat
  root : Nat

/-- node_array_init (node.c). The capacity argument is ignored. mmapOk is the
environment oracle for whether one of the two mmap attempts (huge pages, then
ordinary pages) succeeds; when both fail the C function returns -1, modelled
as none. mmap returns zeroed memory, so the buffer starts as the all-zero
function. -/
def node_array_init (mmapOk : Bool) (capacity : Nat) : Option NodeArray :=
  if mmapOk then
    some { nodesPtr := true, nodes := fun _ => zeroNode, count := 1,
           capacity := NODE_MAX_NODES, token_end := 0, root := 0 }
  else
    none

/-- node_array_free (node.c): munmap the buffer iff the pointer is non-NULL,
then memset the struct to zero. The Bool result records whether munmap was
invoked (it has no effect on the struct). The released buffer no longer
exists, so the model replaces the buffer function by the all-zero function. -/
def node_array_free (arr : NodeArray) : Bool × NodeArray :=
  (arr.nodesPtr,
   { nodesPtr := false, nodes := fun _ => zeroNode, count := 0,
     capacity := 0, token_end := 0, root := 0 })

/-- node_push_token (node.c). kind has the int-typed enum type NodeKind and is
truncated by the uint8_t field store; start, len, line are uint32_t values.
count + 1 needs no reduction: count < capacity and capacity is a uint32_t, so
the increment cannot wrap. start + len is uint32_t addition. -/
def node_push_token (arr : NodeArray) (kind start len line : Nat) :
    Except Nat (Nat × NodeArray) :=
  if arr.count ≥ arr.capacity then
    Except.error arr.capacity
  else
    let idx := arr.count
    let n : Node :=
      { kind := kind % 256, flags := 0,
        op := if len ≤ 65534 then len else NODE_LEN_OVERFLOW,
        start := start, data0 := line,
        data1 := if 65534 < len then (start + len) % U32 else 0 }
    Except.ok (idx, { arr with count := arr.count + 1,
                               nodes := fun i => if i = idx then n else arr.nodes i })

/-- node_push (node.c): the compound push; writes the six fields verbatim.
kind is truncated by the uint8_t store; flags, op, d0, d1 already have the
field types at the call boundary. -/
def node_push (arr : NodeArray) (kind flags op start d0 d1 : Nat) :
    Except Nat (Nat × NodeArray) :=
  if arr.count ≥ arr.capacity then
    Except.error arr.capacity
  else
    let idx := arr.count
    let n : Node :=
      { kind := kind % 256, flags := flags, op := op,
        start := start, data0 := d0, data1 := d1 }
    Except.ok (idx, { arr with count := arr.count + 1,
                               nodes := fun i => if i = idx then n else arr.nodes i })

/-- node_reserve (node.c). needed = arr->count + count is uint32_t addition
and can wrap, which the model keeps: the reduction modulo 2^32 is exactly the
behavior of the C expression. No slot is written. -/
def node_reserve (arr : NodeArray) (count : Nat) : Except Nat (Nat × NodeArray) :=
  let needed := (arr.count + count) % U32
  if needed > arr.capacity then
    Except.error arr.capacity
  else
    Except.ok (arr.count, { arr with count := needed })

/-- The lexer state assumed by the EMIT macro: a NodeArray field named nodes
and a uint32_t field named line. -/
structure Lexer where
  nodes : NodeArray
  line : Nat

/-- EMIT (node.h): the lexer hot-path token emission macro. _len = (e) - (s)
is uint32_t subtraction. The fast path (count < capacity) writes the record
inline, storing e into the uint32_t field data[1] on the overflow branch; the
slow path calls node_push_token, which aborts since count >= capacity. s and
e are uint32_t values. -/
def EMIT (lex : Lexer) (k s e : Nat) : Except Nat Lexer :=
  let a := lex.nodes
  let len := sub32 e s
  if a.count < a.capacity then
    let idx := a.count
    let n : Node :=
      { kind := k % 256, flags := 0,
        op := if len ≤ 65534 then len else NODE_LEN_OVERFLOW,
        start := s, data0 := lex.line,
        data1 := if 65534 < len then e else 0 }
    let a' : NodeArray :=
      { a with count := a.count + 1,
               nodes := fun i => if i = idx then n else a.nodes i }
    Except.ok { lex with nodes := a' }
  else
    match node_push_token a k s len lex.line with
    | Except.ok r => Except.ok { lex with nodes := r.2 }
    | Except.error c => Except.error c

/-! Concrete states used by witnesses and counterexamples. -/

/-- The arena produced by a successful node_array_init. -/
def arena0 : NodeArray :=
  { nodesPtr := true, nodes := fun _ => zeroNode, count := 1,
    capacity := NODE_MAX_NODES, token_end := 0, root := 0 }

/-- The record written by node_push_token arena0 2 10 5 7. -/
def tok1 : Node := { kind := 2, flags := 0, op := 5, start := 10, data0 := 7, data1 := 0 }

/-- arena0 after node_push_token arena0 2 10 5 7. -/
def arena1 : NodeArray :=
  { nodesPtr := true, nodes := fun i => if i = 1 then tok1 else zeroNode, count := 2,
    capacity := NODE_MAX_NODES, token_end := 0, root := 0 }

/-- The record written by node_push arena0 128 3 72 5 1 2. -/
def comp1 : Node := { kind := 128, flags := 3, op := 72, start := 5, data0 := 1, data1 := 2 }

/-- arena0 after node_push arena0 128 3 72 5 1 2. -/
def arena2 : NodeArray :=
  { nodesPtr := true, nodes := fun i => if i = 1 then comp1 else zeroNode, count := 2,
    capacity := NODE_MAX_NODES, token_end := 0, root := 0 }

/-- arena0 after node_reserve arena0 5: count advances to 6, no slot written. -/
def arena3 : NodeArray :=
  { nodesPtr := true, nodes := fun _ => zeroNode, count := 6,
    capacity := NODE_MAX_NODES, token_end := 0, root := 0 }

/-- arena0 after node_reserve arena0 4294967295: the uint32_t sum
1 + 4294967295 wraps to 0, which passes the capacity check and becomes the
new count. -/
def arenaWrapped : NodeArray :=
  { nodesPtr := true, nodes := fun _ => zeroNode, count := 0,
    capacity := NODE_MAX_NODES, token_end := 0, root := 0 }

/-- arena1 after node_reserve arena1 4294967294: the uint32_t sum
2 + 4294967294 wraps to 0, so count becomes 0 while slot 1 holds tok1. -/
def arenaBad : NodeArray :=
  { nodesPtr := true, nodes := fun i => if i = 1 then tok1 else zeroNode, count := 0,
    capacity := NODE_MAX_NODES, token_end := 0, root := 0 }

/-- The record written by node_push_token arena0 2 100 70000 5: length 70000
takes the overflow encoding. -/
def tokOvf : Node :=
  { kind := 2, flags := 0, op := 65535, start := 100, data0 := 5, data1 := 70100 }

/-- arena0 after node_push_token arena0 2 100 70000 5. -/
def arenaOvf : NodeArray :=
  { nodesPtr := true, nodes := fun i => if i = 1 then tokOvf else zeroNode, count := 2,
    capacity := NODE_MAX_NODES, token_end := 0, root := 0 }

/-- The struct after node_array_free: every field zero. -/
def zeroArena : NodeArray :=
  { nodesPtr := false, nodes := fun _ => zeroNode, count := 0,
    capacity := 0, token_end := 0, root := 0 }

/-- arena3 after node_push_token arena3 2 10 5 7: the push following the
reserve of 5 slots lands at index 6. -/
def arena4 : NodeArray :=
  { nodesPtr := true, nodes := fun i => if i = 6 then tok1 else zeroNode, count := 7,
    capacity := NODE_MAX_NODES, token_end := 0, root := 0 }

/-- A concrete lexer state over arena0 at line 7. -/
def lex0 : Lexer := { nodes := arena0, line := 7 }

/-- Arena states reachable from a successful node_array_init by any sequence
of node_push_token, node_push and node_reserve calls that return normally. -/
inductive Reached : NodeArray → Prop where
  | init (cap : Nat) (arr : NodeArray)
      (h : node_array_init true cap = some arr) : Reached arr
  | ptok (arr : NodeArray) (kind start len line idx : Nat) (arr' : NodeArray)
      (hr : Reached arr)
      (h : node_push_token arr kind start len line = Except.ok (idx, arr')) :
      Reached arr'
  | pcomp (arr : NodeArray) (kind flags op start d0 d1 idx : Nat) (arr' : NodeArray)
      (hr : Reached arr)
      (h : node_push arr kind flags op start d0 d1 = Except.ok (idx, arr')) :
      Reached arr'
  | resv (arr : NodeArray) (n idx : Nat) (arr' : NodeArray)
      (hr : Reached arr)
      (h : node_reserve arr n = Except.ok (idx, arr')) :
      Reached arr'

/-- Reachability restricted to reserve calls whose exact sum count + n stays
within capacity, i.e. whose uint32_t addition cannot wrap. -/
inductive ReachedSafe : NodeArray → Prop where
  | init (cap : Nat) (arr : NodeArray)
      (h : node_array_init true cap = some arr) : ReachedSafe arr
  | ptok (arr : NodeArray) (kind start len line idx : Nat) (arr' : NodeArray)
      (hr : ReachedSafe arr)
      (h : node_push_token arr kind start len line = Except.ok (idx, arr')) :
      ReachedSafe arr'
  | pcomp (arr : NodeArray) (kind flags op start d0 d1 idx : Nat) (arr' : NodeArray)
      (hr : ReachedSafe arr)
      (h : node_push arr kind flags op start d0 d1 = Except.ok (idx, arr')) :
      ReachedSafe arr'
  | resv (arr : NodeArray) (n idx : Nat) (arr' : NodeArray)
      (hn : arr.count + n ≤ arr.capacity)
      (hr : ReachedSafe arr)
      (h : node_reserve arr n = Except.ok (idx, arr')) :
      ReachedSafe arr'

/-- uint32_t subtraction of a from the wrapped sum a + b recovers b < 2^32. -/
theorem sub32_mod_add (a b : Nat) (hb : b < U32) : sub32 ((a + b) % U32) a = b := by
  unfold sub32 U32 at *
  omega

/-- Adding back a uint32_t difference: (s + (e - s)) mod 2^32 = e mod 2^32. -/
theorem add_sub32_cancel (s e : Nat) : (s + sub32 e s) % U32 = e % U32 := by
  unfold sub32 U32
  omega

/-- C1: a successful node_push_token with a NodeKind argument (kind < 256)
writes a record with op = len and data[1] = 0 when len ≤ 65534, and op =
NODE_LEN_OVERFLOW with data[1] = start + len in 32-bit arithmetic when
len ≥ 65535; in both cases data[0] = line, flags = 0, and kind and start are
stored as given. -/
theorem C1_push_token_encoding (arr : NodeArray) (kind start len line idx : Nat)
    (arr' : NodeArray) (hkind : kind < 256)
    (h : node_push_token arr kind start len line = Except.ok (idx, arr')) :
    (len ≤ 65534 → (arr'.nodes idx).op = len ∧ (arr'.nodes idx).data1 = 0) ∧
    (65535 ≤ len → (arr'.nodes idx).op = NODE_LEN_OVERFLOW ∧
      (arr'.nodes idx).data1 = (start + len) % U32) ∧
    (arr'.nodes idx).data0 = line ∧ (arr'.nodes idx).flags = 0 ∧
    (arr'.nodes idx).kind = kind ∧ (arr'.nodes idx).start = start := by
  rw [node_push_token] at h
  split at h
  · exact absurd h (by simp)
  · simp only [Except.ok.injEq, Prod.mk.injEq] at h
    obtain ⟨hidx, harr⟩ := h
    subst hidx
    subst harr
    simp only [if_pos rfl]
    refine ⟨?_, ?_, rfl, rfl, Nat.mod_eq_of_lt hkind, rfl⟩
    · intro hle
      constructor
      · simp [if_pos hle]
      · simp [if_neg (by omega : ¬ 65534 < len)]
    · intro hge
      constructor
      · simp [if_neg (by omega : ¬ len ≤ 65534)]
      · simp [if_pos (by omega : 65534 < len)]

/-- C1 witness: the theorem applied to a concrete push on a fresh arena. -/
theorem C1_push_token_encoding_witness :
    (2 : Nat) < 256 ∧
    node_push_token arena0 2 10 5 7 = Except.ok (1, arena1) ∧
    ((5 ≤ 65534 → (arena1.nodes 1).op = 5 ∧ (arena1.nodes 1).data1 = 0) ∧
     (65535 ≤ 5 → (arena1.nodes 1).op = NODE_LEN_OVERFLOW ∧
       (arena1.nodes 1).data1 = (10 + 5) % U32) ∧
     (arena1.nodes 1).data0 = 7 ∧ (arena1.nodes 1).flags = 0 ∧
     (arena1.nodes 1).kind = 2 ∧ (arena1.nodes 1).start = 10) :=
  ⟨by decide, rfl, C1_push_token_encoding arena0 2 10 5 7 1 arena1 (by decide) rfl⟩

/-- C2: for any successful push with 32-bit start and len, the derived token
length NODE_LEN (token end minus start, in uint32_t arithmetic) of the new
record equals len, on both the inline and the overflow encoding. -/
theorem C2_token_length_roundtrip (arr : NodeArray) (kind start len line idx : Nat)
    (arr' : NodeArray) (hlen : len < U32)
    (h : node_push_token arr kind start len line = Except.ok (idx, arr')) :
    NODE_LEN (arr'.nodes idx) = len ∧ (arr'.nodes idx).start = start := by
  rw [node_push_token] at h
  split at h
  · exact absurd h (by simp)
  · simp only [Except.ok.injEq, Prod.mk.injEq] at h
    obtain ⟨hidx, harr⟩ := h
    subst hidx
    subst harr
    refine ⟨?_, by simp⟩
    by_cases hle : len ≤ 65534
    · have hlt : ¬ 65534 < len := by omega
      have hne : len ≠ 65535 := by omega
      simp [NODE_LEN, NODE_END, NODE_LEN_OVERFLOW, hle, hlt, hne]
      exact sub32_mod_add start len hlen
    · have hlt : 65534 < len := by omega
      simp [NODE_LEN, NODE_END, NODE_LEN_OVERFLOW, hle, hlt]
      exact sub32_mod_add start len hlen

/-- C2 witness: the theorem applied to a concrete overflow-length push. -/
theorem C2_token_length_roundtrip_witness :
    (70000 : Nat) < U32 ∧
    node_push_token arena0 2 100 70000 5 = Except.ok (1, arenaOvf) ∧
    (NODE_LEN (arenaOvf.nodes 1) = 70000 ∧ (arenaOvf.nodes 1).start = 100) :=
  ⟨by decide, rfl, C2_token_length_roundtrip arena0 2 100 70000 5 1 arenaOvf (by decide) rfl⟩

/-- C3: the spec makes every allocation that would push count beyond capacity
fatal, but node_reserve computes needed = count + n in wrapping uint32_t
arithmetic: on a fresh arena (count 1, capacity 2^24), reserving 4294967295
slots wraps needed to 0, passes the capacity check, returns normally and sets
count to 0 even though 1 + 4294967295 exceeds the capacity. -/
theorem C3_reserve_check_wraps :
    node_reserve arena0 4294967295 = Except.ok (1, arenaWrapped) ∧
    arena0.capacity < arena0.count + 4294967295 ∧
    arenaWrapped.count = 0 :=
  ⟨rfl, by decide, rfl⟩

/-- C5: node_array_init with any requested capacity (the argument is ignored)
yields count = 1, capacity = 2^24, token_end = 0, root = 0 and an all-zero
record at index 0; when the memory reservation fails it returns the failure
indication (C return -1, modelled as none) and no arena. -/
theorem C5_init_state (capReq : Nat) :
    node_array_init true capReq = some arena0 ∧
    arena0.count = 1 ∧ arena0.capacity = 2 ^ 24 ∧ arena0.token_end = 0 ∧
    arena0.root = 0 ∧ arena0.nodes 0 = zeroNode ∧
    node_array_init false capReq = none :=
  ⟨rfl, rfl, by decide, rfl, rfl, rfl, rfl⟩

set_option maxRecDepth 32768 in
/-- C6: over the 8-bit kind space the six classifications — leaf (k < 16),
keyword (16 ≤ k < 56), punctuation (56 ≤ k < 72), operator (72 ≤ k ≤ 126,
excluding both 0 and the end-of-input sentinel 127), end-of-input (k = 127)
and compound (k > 127) — hold for exactly one class each, IS_TOKEN (k ≤ 127)
is the union of the five token classes, and IS_COMPOUND is the complement. -/
theorem C6_kind_partition (k : Nat) (hk : k < 256) :
    (IS_LEAF k = true ↔ k < 16) ∧
    (IS_KEYWORD k = true ↔ 16 ≤ k ∧ k < 56) ∧
    (IS_PUNCT k = true ↔ 56 ≤ k ∧ k < 72) ∧
    (IS_OPERATOR k = true ↔ 72 ≤ k ∧ k ≤ 126) ∧
    (IS_TOKEN k = true ↔ k ≤ 127) ∧
    (IS_COMPOUND k = true ↔ 127 < k) ∧
    (IS_LEAF k).toNat + (IS_KEYWORD k).toNat + (IS_PUNCT k).toNat +
      (IS_OPERATOR k).toNat + (if k = NODE_EOF then 1 else 0) +
      (IS_COMPOUND k).toNat = 1 ∧
    IS_TOKEN k = (IS_LEAF k || IS_KEYWORD k || IS_PUNCT k ||
      IS_OPERATOR k || decide (k = NODE_EOF)) ∧
    IS_COMPOUND k = !IS_TOKEN k := by
  revert k
  decide

/-- C6 witness: the partition at the end-of-input boundary kind 127. -/
theorem C6_kind_partition_witness :
    (127 : Nat) < 256 ∧
    ((IS_LEAF 127 = true ↔ 127 < 16) ∧
     (IS_KEYWORD 127 = true ↔ 16 ≤ 127 ∧ 127 < 56) ∧
     (IS_PUNCT 127 = true ↔ 56 ≤ 127 ∧ 127 < 72) ∧
     (IS_OPERATOR 127 = true ↔ 72 ≤ 127 ∧ 127 ≤ 126) ∧
     (IS_TOKEN 127 = true ↔ 127 ≤ 127) ∧
     (IS_COMPOUND 127 = true ↔ 127 < 127) ∧
     (IS_LEAF 127).toNat + (IS_KEYWORD 127).toNat + (IS_PUNCT 127).toNat +
       (IS_OPERATOR 127).toNat + (if 127 = NODE_EOF then 1 else 0) +
       (IS_COMPOUND 127).toNat = 1 ∧
     IS_TOKEN 127 = (IS_LEAF 127 || IS_KEYWORD 127 || IS_PUNCT 127 ||
       IS_OPERATOR 127 || decide (127 = NODE_EOF)) ∧
     IS_COMPOUND 127 = !IS_TOKEN 127) :=
  ⟨by decide, C6_kind_partition 127 (by decide)⟩

/-- C9: node_array_free zeroes every field of the struct (the buffer pointer,
count, capacity, token_end and root), never fails, and is idempotent: a second
call on the already-destroyed arena skips munmap (the Bool component is false,
the NULL check) and leaves the same all-zero struct. -/
theorem C9_free_idempotent (arr : NodeArray) :
    (node_array_free arr).2 = zeroArena ∧
    (node_array_free arr).2.nodesPtr = false ∧
    (node_array_free arr).2.count = 0 ∧
    (node_array_free arr).2.capacity = 0 ∧
    (node_array_free arr).2.token_end = 0 ∧
    (node_array_free arr).2.root = 0 ∧
    node_array_free (node_array_free arr).2 = (false, (node_array_free arr).2) :=
  ⟨rfl, rfl, rfl, rfl, rfl, rfl, rfl⟩

/-- C4 counterexample: on a fresh arena (count 1 < capacity), reserving
n = 4294967295 slots returns normally with the pre-operation count, but wraps
count to 0 in uint32_t arithmetic instead of incrementing it by n. -/
theorem C4_reserve_wrap_counterexample :
    arena0.count < arena0.capacity ∧
    node_reserve arena0 4294967295 = Except.ok (arena0.count, arenaWrapped) ∧
    arenaWrapped.count ≠ arena0.count + 4294967295 :=
  ⟨by decide, rfl, by decide⟩

/-- C4 (amended): on an arena with 1 ≤ count and uint32_t capacity, a
successful node_push_token or node_push returns the pre-operation count and
increments count by exactly 1, and a successful node_reserve n whose exact sum
count + n stays within capacity (so the uint32_t addition cannot wrap) returns
the pre-operation count and increments count by exactly n; a push immediately
after such a reserve returns first + n; all returned indices are ≥ 1. -/
theorem C4_alloc_returns_count (arr : NodeArray)
    (kind start len line ckind cflags cop cstart cd0 cd1 n i1 i2 i3 i4 : Nat)
    (a1 a2 a3 a4 : NodeArray)
    (hone : 1 ≤ arr.count) (hcapU : arr.capacity < U32)
    (hn : arr.count + n ≤ arr.capacity)
    (h1 : node_push_token arr kind start len line = Except.ok (i1, a1))
    (h2 : node_push arr ckind cflags cop cstart cd0 cd1 = Except.ok (i2, a2))
    (h3 : node_reserve arr n = Except.ok (i3, a3))
    (h4 : node_push_token a3 kind start len line = Except.ok (i4, a4)) :
    i1 = arr.count ∧ a1.count = arr.count + 1 ∧
    i2 = arr.count ∧ a2.count = arr.count + 1 ∧
    i3 = arr.count ∧ a3.count = arr.count + n ∧
    i4 = arr.count + n ∧
    1 ≤ i1 ∧ 1 ≤ i2 ∧ 1 ≤ i3 ∧ 1 ≤ i4 := by
  rw [node_push_token] at h1
  split at h1
  · exact absurd h1 (by simp)
  rw [node_push] at h2
  split at h2
  · exact absurd h2 (by simp)
  simp only [node_reserve] at h3
  split at h3
  · exact absurd h3 (by simp)
  simp only [Except.ok.injEq, Prod.mk.injEq] at h1 h2 h3
  obtain ⟨hi1, ha1⟩ := h1
  obtain ⟨hi2, ha2⟩ := h2
  obtain ⟨hi3, ha3⟩ := h3
  have hmod : (arr.count + n) % U32 = arr.count + n :=
    Nat.mod_eq_of_lt (lt_of_le_of_lt hn hcapU)
  have ha1c : a1.count = arr.count + 1 := by rw [← ha1]
  have ha2c : a2.count = arr.count + 1 := by rw [← ha2]
  have ha3c : a3.count = arr.count + n := by rw [← ha3]; exact hmod
  rw [node_push_token] at h4
  split at h4
  · exact absurd h4 (by simp)
  simp only [Except.ok.injEq, Prod.mk.injEq] at h4
  obtain ⟨hi4, ha4⟩ := h4
  exact ⟨hi1.symm, ha1c, hi2.symm, ha2c, hi3.symm, ha3c,
    by omega, by omega, by omega, by omega, by omega⟩

/-- C4 witness: the amended theorem on a fresh arena with a token push, a
compound push, a reserve of 5 slots and the push following it. -/
theorem C4_alloc_returns_count_witness :
    1 ≤ arena0.count ∧ arena0.capacity < U32 ∧ arena0.count + 5 ≤ arena0.capacity ∧
    (1 = arena0.count ∧ arena1.count = arena0.count + 1 ∧
     1 = arena0.count ∧ arena2.count = arena0.count + 1 ∧
     1 = arena0.count ∧ arena3.count = arena0.count + 5 ∧
     6 = arena0.count + 5 ∧
     1 ≤ 1 ∧ 1 ≤ 1 ∧ 1 ≤ 1 ∧ (1 : Nat) ≤ 6) :=
  ⟨by decide, by decide, by decide,
   C4_alloc_returns_count arena0 2 10 5 7 128 3 72 5 1 2 5 1 1 1 6
     arena1 arena2 arena3 arena4 (by decide) (by decide) (by decide) rfl rfl rfl rfl⟩

/-- C7 counterexample: the all-states-above-count-are-zero invariant fails on
the reachable states of the code as written: init, one token push, then a
reserve of 4294967294 slots wraps count to 0, leaving the nonzero record at
index 1 ≥ count. -/
theorem C7_zero_above_counterexample :
    Reached arenaBad ∧ arenaBad.count = 0 ∧ arenaBad.nodes 1 ≠ zeroNode :=
  ⟨Reached.resv arena1 4294967294 2 arenaBad
      (Reached.ptok arena0 2 10 5 7 1 arena1 (Reached.init 64 arena0 rfl) rfl) rfl,
   rfl, by decide⟩

/-- C7 (amended): in every arena state reachable from node_array_init by
pushes and by reserves whose exact sum count + n stays within capacity (no
uint32_t wrap), every slot at an index ≥ count is all-zero; consequently a
further reserve of n slots returning first leaves all slots in
[first, first + n) all-zero. -/
theorem C7_reserved_slots_zero (st : NodeArray) (h : ReachedSafe st) :
    (∀ i, st.count ≤ i → st.nodes i = zeroNode) ∧
    (∀ n first st', node_reserve st n = Except.ok (first, st') →
      ∀ i, first ≤ i → i < first + n → st'.nodes i = zeroNode) := by
  have hinv : ∀ t : NodeArray, ReachedSafe t →
      1 ≤ t.count ∧ t.capacity = NODE_MAX_NODES ∧ t.count ≤ t.capacity ∧
      (∀ i, t.count ≤ i → t.nodes i = zeroNode) := by
    intro t ht
    induction ht with
    | init cap arr hi =>
        rw [show node_array_init true cap = some arena0 from rfl] at hi
        simp only [Option.some.injEq] at hi
        subst hi
        exact ⟨le_refl 1, rfl, by decide, fun i hi => rfl⟩
    | ptok arr kind start len line idx arr' hr h ih =>
        rw [node_push_token] at h
        split at h
        · exact absurd h (by simp)
        rename_i hcap
        simp only [Except.ok.injEq, Prod.mk.injEq] at h
        obtain ⟨hidx, harr⟩ := h
        obtain ⟨ih1, ih2, ih3, ih4⟩ := ih
        have hc' : arr'.count = arr.count + 1 := by rw [← harr]
        have hcap' : arr'.capacity = arr.capacity := by rw [← harr]
        have hnodes : ∀ i, i ≠ arr.count → arr'.nodes i = arr.nodes i := by
          intro i hne
          rw [← harr]
          simp [hne]
        refine ⟨by omega, by rw [hcap']; exact ih2, by omega, ?_⟩
        intro i hi
        rw [hnodes i (by omega)]
        exact ih4 i (by omega)
    | pcomp arr kind flags op start d0 d1 idx arr' hr h ih =>
        rw [node_push] at h
        split at h
        · exact absurd h (by simp)
        rename_i hcap
        simp only [Except.ok.injEq, Prod.mk.injEq] at h
        obtain ⟨hidx, harr⟩ := h
        obtain ⟨ih1, ih2, ih3, ih4⟩ := ih
        have hc' : arr'.count = arr.count + 1 := by rw [← harr]
        have hcap' : arr'.capacity = arr.capacity := by rw [← harr]
        have hnodes : ∀ i, i ≠ arr.count → arr'.nodes i = arr.nodes i := by
          intro i hne
          rw [← harr]
          simp [hne]
        refine ⟨by omega, by rw [hcap']; exact ih2, by omega, ?_⟩
        intro i hi
        rw [hnodes i (by omega)]
        exact ih4 i (by omega)
    | resv arr n idx arr' hn hr h ih =>
        simp only [node_reserve] at h
        split at h
        · exact absurd h (by simp)
        simp only [Except.ok.injEq, Prod.mk.injEq] at h
        obtain ⟨hidx, harr⟩ := h
        obtain ⟨ih1, ih2, ih3, ih4⟩ := ih
        have hmod : (arr.count + n) % U32 = arr.count + n := by
          apply Nat.mod_eq_of_lt
          have h2 := ih2
          simp only [NODE_MAX_NODES] at h2
          unfold U32
          omega
        have hc' : arr'.count = arr.count + n := by rw [← harr]; exact hmod
        have hcap' : arr'.capacity = arr.capacity := by rw [← harr]
        have hnodes : ∀ i, arr'.nodes i = arr.nodes i := by
          intro i
          rw [← harr]
        refine ⟨by omega, by rw [hcap']; exact ih2, by omega, ?_⟩
        intro i hi
        rw [hnodes i]
        exact ih4 i (by omega)
  refine ⟨(hinv st h).2.2.2, ?_⟩
  intro n first st' hres i hfi hlt
  simp only [node_reserve] at hres
  split at hres
  · exact absurd hres (by simp)
  simp only [Except.ok.injEq, Prod.mk.injEq] at hres
  obtain ⟨hf, hst⟩ := hres
  have hnodes : st'.nodes i = st.nodes i := by rw [← hst]
  rw [hnodes]
  exact (hinv st h).2.2.2 i (by omega)

/-- C7 witness: the amended theorem on the freshly initialized arena, slot 5. -/
theorem C7_reserved_slots_zero_witness :
    arena0.nodes 5 = zeroNode :=
  (C7_reserved_slots_zero arena0 (ReachedSafe.init 64 arena0 rfl)).1 5 (by decide)

/-- C8: each allocation operation, when it returns normally, leaves every
record below the pre-operation count unchanged (node_reserve writes no record
at all, so its whole buffer is unchanged) and preserves the capacity,
token_end and root fields; the null record at index 0 is covered by the
below-count clause whenever count ≥ 1. -/
theorem C8_alloc_frame (arr : NodeArray)
    (kind start len line ckind cflags cop cstart cd0 cd1 n i1 i2 i3 : Nat)
    (a1 a2 a3 : NodeArray)
    (h1 : node_push_token arr kind start len line = Except.ok (i1, a1))
    (h2 : node_push arr ckind cflags cop cstart cd0 cd1 = Except.ok (i2, a2))
    (h3 : node_reserve arr n = Except.ok (i3, a3)) :
    (∀ j, j < arr.count → a1.nodes j = arr.nodes j) ∧
    (∀ j, j < arr.count → a2.nodes j = arr.nodes j) ∧
    (∀ j, a3.nodes j = arr.nodes j) ∧
    a1.capacity = arr.capacity ∧ a1.token_end = arr.token_end ∧ a1.root = arr.root ∧
    a2.capacity = arr.capacity ∧ a2.token_end = arr.token_end ∧ a2.root = arr.root ∧
    a3.capacity = arr.capacity ∧ a3.token_end = arr.token_end ∧ a3.root = arr.root := by
  rw [node_push_token] at h1
  split at h1
  · exact absurd h1 (by simp)
  rw [node_push] at h2
  split at h2
  · exact absurd h2 (by simp)
  simp only [node_reserve] at h3
  split at h3
  · exact absurd h3 (by simp)
  simp only [Except.ok.injEq, Prod.mk.injEq] at h1 h2 h3
  obtain ⟨hi1, ha1⟩ := h1
  obtain ⟨hi2, ha2⟩ := h2
  obtain ⟨hi3, ha3⟩ := h3
  refine ⟨?_, ?_, ?_, by rw [← ha1], by rw [← ha1], by rw [← ha1],
    by rw [← ha2], by rw [← ha2], by rw [← ha2],
    by rw [← ha3], by rw [← ha3], by rw [← ha3]⟩
  · intro j hj
    have hne : j ≠ arr.count := Nat.ne_of_lt hj
    rw [← ha1]
    simp [hne]
  · intro j hj
    have hne : j ≠ arr.count := Nat.ne_of_lt hj
    rw [← ha2]
    simp [hne]
  · intro j
    rw [← ha3]

/-- C8 witness: the frame conditions on a fresh arena for a concrete token
push, compound push and reserve. -/
theorem C8_alloc_frame_witness :
    arena1.nodes 0 = arena0.nodes 0 ∧ arena2.nodes 0 = arena0.nodes 0 ∧
    arena3.nodes 3 = arena0.nodes 3 ∧
    arena1.capacity = arena0.capacity ∧ arena2.token_end = arena0.token_end ∧
    arena3.root = arena0.root := by
  obtain ⟨f1, f2, f3, c1, t1, r1, c2, t2, r2, c3, t3, r3⟩ :=
    C8_alloc_frame arena0 2 10 5 7 128 3 72 5 1 2 5 1 1 1 arena1 arena2 arena3 rfl rfl rfl
  exact ⟨f1 0 (by decide), f2 0 (by decide), f3 3, c1, t2, r3⟩

/-- C10: the EMIT macro is state-equivalent to node_push_token on kind k,
start s, length e - s (uint32_t subtraction) and the lexer's current line,
with the returned index discarded: the inline fast path writes the identical
record (on the overflow branch data[1] = e = s + len in uint32_t arithmetic),
and the slow path defers to node_push_token itself. -/
theorem C10_emit_refines_push_token (lex : Lexer) (k s e : Nat) (he : e < U32) :
    EMIT lex k s e =
      Except.map (fun r => { lex with nodes := r.2 })
        (node_push_token lex.nodes k s (sub32 e s) lex.line) := by
  have hd : (s + sub32 e s) % U32 = e := by
    rw [add_sub32_cancel]
    exact Nat.mod_eq_of_lt he
  simp only [EMIT, node_push_token]
  by_cases hc : lex.nodes.count < lex.nodes.capacity
  · rw [if_pos hc, if_neg (by omega : ¬ lex.nodes.count ≥ lex.nodes.capacity)]
    simp only [Except.map]
    rw [hd]
  · rw [if_neg hc, if_pos (by omega : lex.nodes.count ≥ lex.nodes.capacity)]
    simp [Except.map]

/-- C10 witness: the equivalence on a concrete lexer state and token span. -/
theorem C10_emit_refines_push_token_witness :
    (15 : Nat) < U32 ∧
    EMIT lex0 2 10 15 =
      Except.map (fun r => { lex0 with nodes := r.2 })
        (node_push_token lex0.nodes 2 10 (sub32 15 10) lex0.line) :=
  ⟨by decide, C10_emit_refines_push_token lex0 2 10 15 (by decide)⟩

end Jsopt
